import Mathlib

/-!
Shallow embedding of the live timing and scoring engine of
`src/console/race_timing_console.py` (MidwestServices race timing console).

Modelling conventions:
* Instants are `Nat` ticks; `elapsed` is the truncated difference of a capture
  instant and the race start instant (the source stores float seconds).
* The SQLite `results` table is an insertion-ordered list; `AUTOINCREMENT`
  ids are modelled by a `nextId` counter carried in the state.
* The SQL `LEFT JOIN runners ... ORDER BY results.finish_time ASC` is
  modelled as a per-row directory lookup followed by a sort on elapsed
  time (`List.insertionSort`). The source query has no secondary sort
  key, so SQLite leaves the relative order of rows with equal elapsed
  time unspecified; the embedding's stable sort is one admissible
  refinement, and no theorem below relies on its tie order — the
  tie-order question itself is treated through `isOrderByElapsedResult`,
  the relation capturing exactly what the single-key query guarantees.
* Console printing, sqlite connections and the beep side effect carry no
  state relevant to the claims and are dropped; each function returns the
  updated state together with an outcome describing the branch taken.
* `start_race` in the source enters the interactive `live_race_input` loop
  after flipping the flags; the loop body is a separate sequence of
  `record_result` calls, so `start_race` here models just the state change.
-/

namespace RaceTiming

/-- A row of the `runners` table (bib INTEGER PRIMARY KEY, name, team, rfid). -/
structure Runner where
  bib : Int
  name : String
  team : String
  rfid : String
deriving DecidableEq

/-- A row of the `results` table (id AUTOINCREMENT, bib, finish_time, race_date). -/
structure ResultRow where
  id : Nat
  bib : Int
  finish_time : Nat
  race_date : String
deriving DecidableEq

/-- The module-level mutable globals of the console program:
`DB_FILENAME`, `race_started`, `race_stopped`, `race_start_time`, plus the
`results` table of the active database and its id counter. -/
structure ConsoleState where
  dbFilename : String
  race_started : Bool
  race_stopped : Bool
  race_start_time : Option Nat
  results : List ResultRow
  nextId : Nat
deriving DecidableEq

/-- The source stores `race_start_time.strftime('%Y-%m-%d')`; calendar
rendering is abstracted as a rendering of the start instant's day number
(instants being second ticks). Claims do not depend on the rendering. -/
def formatDate (t : Option Nat) : String := toString (t.getD 0 / 86400)

/-- Characters stripped by Python `int()` around the digits. -/
def isSpaceChar (c : Char) : Bool := c == ' ' || c == '\t' || c == '\n' || c == '\r'

/-- Strip leading and trailing whitespace, as Python `int()` does. -/
def trimChars (cs : List Char) : List Char :=
  ((cs.dropWhile isSpaceChar).reverse.dropWhile isSpaceChar).reverse

/-- A non-empty all-digit character list. -/
def isDigits (cs : List Char) : Bool := !cs.isEmpty && cs.all (fun c => c.isDigit)

/-- Digit characters to the number they denote, most significant first. -/
def digitsToNat (cs : List Char) : Nat := cs.foldl (fun acc c => acc * 10 + (c.toNat - 48)) 0

/-- Python `int(text)` on a stripped character list: optional sign then digits. -/
def parsePyIntChars : List Char → Option Int
  | '-' :: rest => if isDigits rest then some (-(digitsToNat rest : Int)) else none
  | '+' :: rest => if isDigits rest then some ((digitsToNat rest : Int)) else none
  | cs => if isDigits cs then some ((digitsToNat cs : Int)) else none

/-- Python `int(text)`: `some` the parsed value, `none` when `ValueError` is raised. -/
def parsePyInt (s : String) : Option Int := parsePyIntChars (trimChars s.data)

/-- Which branch `record_result` took. -/
inductive RecordOutcome where
  | recorded (bib_value : Int)
  | raceNotActive
  | invalidBib
deriving DecidableEq

/-- `record_result(bib)`: refuses unless the race is active
(`if not race_started or race_stopped: return`); blank input records bib 0;
non-blank input must parse with `int()` or nothing is written; on success one
row is appended to `results` with the next id. -/
def record_result (s : ConsoleState) (now : Nat) (bib : String) : ConsoleState × RecordOutcome :=
  if !s.race_started || s.race_stopped then
    (s, .raceNotActive)
  else
    let elapsed := now - s.race_start_time.getD 0
    let race_date := formatDate s.race_start_time
    match (if bib = "" then some (0 : Int) else parsePyInt bib) with
    | none => (s, .invalidBib)
    | some bib_value =>
        ({ s with
            results := s.results ++ [⟨s.nextId, bib_value, elapsed, race_date⟩],
            nextId := s.nextId + 1 },
         .recorded bib_value)

/-- Which branch `start_race` took. -/
inductive StartOutcome where
  | noDb
  | alreadyRunning
  | started
deriving DecidableEq

/-- `start_race()`: refuses without a loaded database, refuses while
`race_started`; otherwise sets the flags and `race_start_time = now()`. -/
def start_race (s : ConsoleState) (now : Nat) : ConsoleState × StartOutcome :=
  if s.dbFilename = "" then (s, .noDb)
  else if s.race_started then (s, .alreadyRunning)
  else ({ s with race_started := true, race_stopped := false, race_start_time := some now },
        .started)

/-- Which branch `stop_race` took. -/
inductive StopOutcome where
  | notStarted
  | ok
deriving DecidableEq

/-- `stop_race()`: refuses unless `race_started`; otherwise sets
`race_stopped = True` and `race_started = False`. -/
def stop_race (s : ConsoleState) : ConsoleState × StopOutcome :=
  if !s.race_started then (s, .notStarted)
  else ({ s with race_stopped := true, race_started := false }, .ok)

/-- `SELECT ... FROM runners WHERE bib = b`: bib is the PRIMARY KEY, so the
first match is the row. -/
def lookupRunner (runners : List Runner) (b : Int) : Option Runner :=
  runners.find? (fun r => r.bib == b)

/-- One row of the results-times-runners left join. -/
structure JoinedRow where
  bib : Int
  name : String
  team : String
  elapsed : Nat
deriving DecidableEq

/-- `LEFT JOIN runners ON results.bib = runners.bib` with
`COALESCE(runners.name, 'UNKNOWN')` and `COALESCE(runners.team, 'UNKNOWN')`. -/
def joinRow (runners : List Runner) (ev : ResultRow) : JoinedRow :=
  match lookupRunner runners ev.bib with
  | some r => ⟨ev.bib, r.name, r.team, ev.finish_time⟩
  | none => ⟨ev.bib, "UNKNOWN", "UNKNOWN", ev.finish_time⟩

/-- The joined table in insertion (rowid) order. -/
def joinRows (runners : List Runner) (results : List ResultRow) : List JoinedRow :=
  results.map (joinRow runners)

/-- The `ORDER BY results.finish_time ASC` comparison. -/
def elapsedLE (a b : JoinedRow) : Prop := a.elapsed ≤ b.elapsed

instance : DecidableRel elapsedLE := fun a b => Nat.decLe a.elapsed b.elapsed

instance : IsTrans JoinedRow elapsedLE := ⟨fun _ _ _ => Nat.le_trans⟩

instance : IsTotal JoinedRow elapsedLE := ⟨fun a b => Nat.le_total a.elapsed b.elapsed⟩

/-- The joined table sorted by ascending elapsed time, modelling the SQL
`ORDER BY finish_time ASC` scan. The query names no secondary key, so the
order of equal-elapsed rows is unspecified in the source; this definition
fixes one admissible refinement, and no theorem about it depends on which
refinement was picked. -/
def sortedJoin (runners : List Runner) (results : List ResultRow) : List JoinedRow :=
  List.insertionSort elapsedLE (joinRows runners results)

/-- One displayed line of the individual results report. -/
structure RankedRow where
  place : Nat
  bib : Int
  name : String
  team : String
  elapsed : Nat
deriving DecidableEq

/-- `for i, row in enumerate(rows, 1)`: assign 1-based places down the
sorted rows. -/
def rankRows : Nat → List JoinedRow → List RankedRow
  | _, [] => []
  | i, r :: rest => ⟨i, r.bib, r.name, r.team, r.elapsed⟩ :: rankRows (i + 1) rest

/-- `show_individual_results()`: the ranked individual report. -/
def show_individual_results (runners : List Runner) (results : List ResultRow) :
    List RankedRow :=
  rankRows 1 (sortedJoin runners results)

/-- `team_places[team].append(place)` with dict insertion-order keys:
append a place to a team's list, creating the key at the back if new. -/
def addPlace (acc : List (String × List Nat)) (t : String) (p : Nat) :
    List (String × List Nat) :=
  if acc.any (fun kv => kv.1 == t) then
    acc.map (fun kv => if kv.1 == t then (kv.1, kv.2 ++ [p]) else kv)
  else acc ++ [(t, [p])]

/-- The `place = 1; for row in rows: ...; place += 1` grouping loop. -/
def teamPlacesAux : List (String × List Nat) → Nat → List String → List (String × List Nat)
  | acc, _, [] => acc
  | acc, p, t :: ts => teamPlacesAux (addPlace acc t p) (p + 1) ts

/-- The `team_places` dict after the grouping loop, keys in first-arrival order. -/
def teamPlaces (teams : List String) : List (String × List Nat) :=
  teamPlacesAux [] 1 teams

/-- One displayed block of the team results report. -/
structure TeamScoreEntry where
  team : String
  scorers : List Nat
  displacers : List Nat
  total : Nat
deriving DecidableEq

/-- `show_team_results()`: for each team, in dict order, scorers are
`places[:5]`, displacers `places[5:7] if len(places) > 5 else []`, and the
total is the sum of the scorers. -/
def show_team_results (runners : List Runner) (results : List ResultRow) :
    List TeamScoreEntry :=
  (teamPlaces ((sortedJoin runners results).map (fun r => r.team))).map fun kv =>
    { team := kv.1
      scorers := kv.2.take 5
      displacers := if 5 < kv.2.length then (kv.2.drop 5).take 2 else []
      total := (kv.2.take 5).sum }

/-- A sequence of `record_result` calls, each with its capture instant. -/
def recordAll (s : ConsoleState) : List (Nat × String) → ConsoleState
  | [] => s
  | c :: cs => recordAll (record_result s c.1 c.2).1 cs

/-! ### Ranking lemmas -/

open List

lemma rankRows_length (l : List JoinedRow) : ∀ k, (rankRows k l).length = l.length := by
  induction l with
  | nil => intro k; rfl
  | cons r rest ih => intro k; simp [rankRows, ih]

lemma rankRows_map_elapsed (l : List JoinedRow) :
    ∀ k, (rankRows k l).map (fun r => r.elapsed) = l.map (fun r => r.elapsed) := by
  induction l with
  | nil => intro k; rfl
  | cons r rest ih => intro k; simp [rankRows, ih]

lemma rankRows_get_place (l : List JoinedRow) :
    ∀ k i (h : i < (rankRows k l).length), ((rankRows k l).get ⟨i, h⟩).place = k + i := by
  induction l with
  | nil => intro k i h; simp [rankRows] at h
  | cons r rest ih =>
      intro k i h
      cases i with
      | zero => simp [rankRows]
      | succ j =>
          have h' : j < (rankRows (k + 1) rest).length := by
            simpa [rankRows] using h
          have hstep : (rankRows k (r :: rest)).get ⟨j + 1, h⟩ =
              (rankRows (k + 1) rest).get ⟨j, h'⟩ := rfl
          rw [hstep, ih (k + 1) j h']
          omega

lemma rankRows_mem (l : List JoinedRow) :
    ∀ k, ∀ j ∈ l, ∃ r ∈ rankRows k l, r.bib = j.bib ∧ r.name = j.name ∧ r.team = j.team := by
  induction l with
  | nil => intro k j hj; cases hj
  | cons a rest ih =>
      intro k j hj
      rcases List.mem_cons.mp hj with h | h
      · subst h
        exact ⟨⟨k, j.bib, j.name, j.team, j.elapsed⟩, List.mem_cons_self _ _, rfl, rfl, rfl⟩
      · obtain ⟨r, hr, hfields⟩ := ih (k + 1) j h
        exact ⟨r, List.mem_cons_of_mem _ hr, hfields⟩

/-! ### Team grouping lemmas -/

/-- Specification view of dict key order: the first occurrence of each team,
skipping teams already seen. -/
def firstOccur (seen : List String) : List String → List String
  | [] => []
  | t :: ts => if t ∈ seen then firstOccur seen ts else t :: firstOccur (t :: seen) ts

/-- Specification view of a team's place list: the 1-based positions (counted
from `p`) at which the team appears in the elapsed-ordered team column. -/
def placesFrom (u : String) : Nat → List String → List Nat
  | _, [] => []
  | p, t :: ts => if t = u then p :: placesFrom u (p + 1) ts else placesFrom u (p + 1) ts

/-- The place list the grouping dict holds for a team (empty when absent). -/
def getPlaces (acc : List (String × List Nat)) (u : String) : List Nat :=
  ((acc.find? (fun kv => kv.1 == u)).map (fun kv => kv.2)).getD []

lemma firstOccur_congr {s₁ s₂ : List String} (hs : ∀ x, x ∈ s₁ ↔ x ∈ s₂) :
    ∀ ts, firstOccur s₁ ts = firstOccur s₂ ts := by
  intro ts
  induction ts generalizing s₁ s₂ with
  | nil => rfl
  | cons t ts ih =>
      by_cases h : t ∈ s₁
      · rw [firstOccur, if_pos h, firstOccur, if_pos ((hs t).mp h)]
        exact ih hs
      · rw [firstOccur, if_neg h, firstOccur, if_neg (fun hc => h ((hs t).mpr hc))]
        refine congrArg (t :: ·) (ih ?_)
        intro x
        simp [hs x]

lemma mem_firstOccur {u : String} :
    ∀ ts seen, u ∈ firstOccur seen ts ↔ (u ∈ ts ∧ u ∉ seen) := by
  intro ts
  induction ts with
  | nil => intro seen; simp [firstOccur]
  | cons t ts ih =>
      intro seen
      by_cases h : t ∈ seen
      · rw [firstOccur, if_pos h, ih]
        constructor
        · rintro ⟨h1, h2⟩; exact ⟨List.mem_cons_of_mem _ h1, h2⟩
        · rintro ⟨h1, h2⟩
          rcases List.mem_cons.mp h1 with rfl | h1
          · exact absurd h h2
          · exact ⟨h1, h2⟩
      · rw [firstOccur, if_neg h]
        constructor
        · intro hm
          rcases List.mem_cons.mp hm with rfl | hm
          · exact ⟨List.mem_cons_self _ _, h⟩
          · obtain ⟨h1, h2⟩ := (ih (t :: seen)).mp hm
            exact ⟨List.mem_cons_of_mem _ h1,
              fun hc => h2 (List.mem_cons_of_mem _ hc)⟩
        · rintro ⟨h1, h2⟩
          rcases List.mem_cons.mp h1 with rfl | h1
          · exact List.mem_cons_self _ _
          · by_cases hut : u = t
            · subst hut; exact List.mem_cons_self _ _
            · exact List.mem_cons_of_mem _
                ((ih (t :: seen)).mpr ⟨h1, by simp [hut, h2]⟩)

lemma nodup_firstOccur : ∀ ts seen, (firstOccur seen ts).Nodup := by
  intro ts
  induction ts with
  | nil => intro seen; simp [firstOccur]
  | cons t ts ih =>
      intro seen
      by_cases h : t ∈ seen
      · rw [firstOccur, if_pos h]; exact ih seen
      · rw [firstOccur, if_neg h]
        refine List.nodup_cons.mpr ⟨?_, ih (t :: seen)⟩
        intro hc
        exact ((mem_firstOccur ts (t :: seen)).mp hc).2 (List.mem_cons_self _ _)

lemma keys_addPlace (acc : List (String × List Nat)) (t : String) (p : Nat) :
    (addPlace acc t p).map (fun kv => kv.1) =
      if t ∈ acc.map (fun kv => kv.1) then acc.map (fun kv => kv.1)
      else acc.map (fun kv => kv.1) ++ [t] := by
  have hmem : (acc.any (fun kv => kv.1 == t)) = true ↔ t ∈ acc.map (fun kv => kv.1) := by
    simp [List.any_eq_true, List.mem_map]
  by_cases h : t ∈ acc.map (fun kv => kv.1)
  · rw [if_pos h, addPlace, if_pos (hmem.mpr h), List.map_map]
    apply List.map_congr_left
    intro kv _
    show (if kv.1 == t then (kv.1, kv.2 ++ [p]) else kv).1 = kv.1
    split <;> rfl
  · rw [if_neg h, addPlace, if_neg (fun hc => h (hmem.mp hc))]
    simp

lemma keys_teamPlacesAux :
    ∀ (ts : List String) (p : Nat) (acc : List (String × List Nat)),
      (teamPlacesAux acc p ts).map (fun kv => kv.1) =
        acc.map (fun kv => kv.1) ++ firstOccur (acc.map (fun kv => kv.1)) ts := by
  intro ts
  induction ts with
  | nil => intro p acc; simp [teamPlacesAux, firstOccur]
  | cons t ts ih =>
      intro p acc
      rw [teamPlacesAux, ih, keys_addPlace]
      by_cases h : t ∈ acc.map (fun kv => kv.1)
      · rw [if_pos h, firstOccur, if_pos h]
      · rw [if_neg h, firstOccur, if_neg h, List.append_assoc]
        refine congrArg _ (congrArg (t :: ·) ?_)
        apply firstOccur_congr
        intro x; simp [or_comm]

lemma getPlaces_addPlace (acc : List (String × List Nat)) (t : String) (p : Nat) (u : String) :
    getPlaces (addPlace acc t p) u =
      if u = t then getPlaces acc t ++ [p] else getPlaces acc u := by
  by_cases hany : (acc.any (fun kv => kv.1 == t)) = true
  · rw [addPlace, if_pos hany]
    have hpred : ((fun kv : String × List Nat => kv.1 == u) ∘
        (fun kv : String × List Nat => if kv.1 == t then (kv.1, kv.2 ++ [p]) else kv)) =
        (fun kv : String × List Nat => kv.1 == u) := by
      funext kv
      show ((if kv.1 == t then (kv.1, kv.2 ++ [p]) else kv).1 == u) = (kv.1 == u)
      split <;> rfl
    have hfind : (acc.map (fun kv => if kv.1 == t then (kv.1, kv.2 ++ [p]) else kv)).find?
        (fun kv => kv.1 == u) =
        (acc.find? (fun kv => kv.1 == u)).map
          (fun kv => if kv.1 == t then (kv.1, kv.2 ++ [p]) else kv) := by
      rw [List.find?_map, hpred]
    cases hfind₂ : acc.find? (fun kv => kv.1 == u) with
    | none =>
        have hut : ¬ u = t := by
          intro hc
          obtain ⟨kv, hkvm, hkvu⟩ := List.any_eq_true.mp hany
          have := List.find?_eq_none.mp hfind₂ kv hkvm
          rw [hc] at this
          exact this hkvu
        rw [if_neg hut, getPlaces, getPlaces, hfind, hfind₂]
        rfl
    | some kv₀ =>
        have hkey : (kv₀.1 == u) = true := by
          simpa using List.find?_some hfind₂
        by_cases hu : u = t
        · have hkeyt : (kv₀.1 == t) = true := by rw [← hu]; exact hkey
          have hfind₃ : acc.find? (fun kv => kv.1 == t) = some kv₀ := by
            rw [← hu]; exact hfind₂
          rw [if_pos hu, getPlaces, getPlaces, hfind, hfind₂, hfind₃]
          have heq : kv₀.1 = t := beq_iff_eq.mp hkeyt
          simp [heq]
        · have hkeyt : (kv₀.1 == t) = false := by
            apply beq_eq_false_iff_ne.mpr
            intro hc
            exact hu ((beq_iff_eq.mp hkey).symm.trans hc)
          rw [if_neg hu, getPlaces, getPlaces, hfind, hfind₂]
          have hne2 : ¬ kv₀.1 = t := by simpa using hkeyt
          simp [hne2]
  · rw [addPlace, if_neg hany]
    have habs : acc.find? (fun kv => kv.1 == t) = none := by
      rw [List.find?_eq_none]
      intro kv hkv hc
      exact hany (List.any_eq_true.mpr ⟨kv, hkv, hc⟩)
    by_cases hu : u = t
    · have habs' : acc.find? (fun kv => kv.1 == u) = none := by rw [hu]; exact habs
      rw [if_pos hu, getPlaces, getPlaces, List.find?_append, habs', habs]
      have : (t == u) = true := beq_iff_eq.mpr hu.symm
      simp [List.find?, this]
    · rw [if_neg hu, getPlaces, getPlaces, List.find?_append]
      cases hfind₂ : acc.find? (fun kv => kv.1 == u) with
      | none =>
          have : (t == u) = false := by
            apply beq_eq_false_iff_ne.mpr
            intro hc; exact hu hc.symm
          simp [List.find?, this]
      | some kv₀ => simp

lemma getPlaces_teamPlacesAux :
    ∀ (ts : List String) (p : Nat) (acc : List (String × List Nat)) (u : String),
      getPlaces (teamPlacesAux acc p ts) u = getPlaces acc u ++ placesFrom u p ts := by
  intro ts
  induction ts with
  | nil => intro p acc u; simp [teamPlacesAux, placesFrom]
  | cons t ts ih =>
      intro p acc u
      rw [teamPlacesAux, ih, getPlaces_addPlace, placesFrom]
      by_cases hu : u = t
      · subst hu
        rw [if_pos rfl, if_pos rfl, List.append_assoc]
        rfl
      · rw [if_neg hu, if_neg (fun hc : t = u => hu hc.symm)]

lemma placesFrom_lower_bound {u : String} :
    ∀ ts p, ∀ x ∈ placesFrom u p ts, p ≤ x := by
  intro ts
  induction ts with
  | nil => intro p x hx; cases hx
  | cons t ts ih =>
      intro p x hx
      rw [placesFrom] at hx
      split at hx
      · rcases List.mem_cons.mp hx with rfl | hx
        · exact Nat.le_refl _
        · exact Nat.le_of_succ_le (ih (p + 1) x hx)
      · exact Nat.le_of_succ_le (ih (p + 1) x hx)

lemma placesFrom_pairwise {u : String} :
    ∀ ts p, (placesFrom u p ts).Pairwise (· < ·) := by
  intro ts
  induction ts with
  | nil => intro p; simp [placesFrom]
  | cons t ts ih =>
      intro p
      rw [placesFrom]
      split
      · refine List.pairwise_cons.mpr ⟨?_, ih (p + 1)⟩
        intro x hx
        exact Nat.lt_of_succ_le (placesFrom_lower_bound ts (p + 1) x hx)
      · exact ih (p + 1)

lemma find?_eq_of_nodup_keys :
    ∀ (acc : List (String × List Nat)), (acc.map (fun kv => kv.1)).Nodup →
      ∀ kv ∈ acc, acc.find? (fun x => x.1 == kv.1) = some kv := by
  intro acc
  induction acc with
  | nil => intro _ kv hkv; cases hkv
  | cons a rest ih =>
      intro hnd kv hkv
      rw [List.map_cons] at hnd
      have hnd' := List.nodup_cons.mp hnd
      rcases List.mem_cons.mp hkv with rfl | hkv
      · exact List.find?_cons_of_pos _ (beq_self_eq_true _)
      · have hne : ¬ ((fun x : String × List Nat => x.1 == kv.1) a = true) := by
          simp only [beq_iff_eq]
          intro hc
          exact hnd'.1 (hc ▸ List.mem_map.mpr ⟨kv, hkv, rfl⟩)
        have hstep : List.find? (fun x : String × List Nat => x.1 == kv.1) (a :: rest) =
            List.find? (fun x : String × List Nat => x.1 == kv.1) rest :=
          List.find?_cons_of_neg rest hne
        rw [hstep]
        exact ih hnd'.2 kv hkv

lemma keys_teamPlaces (ts : List String) :
    (teamPlaces ts).map (fun kv => kv.1) = firstOccur [] ts := by
  rw [teamPlaces, keys_teamPlacesAux]
  rfl

lemma nodup_keys_teamPlaces (ts : List String) :
    ((teamPlaces ts).map (fun kv => kv.1)).Nodup := by
  rw [keys_teamPlaces]
  exact nodup_firstOccur ts []

lemma mem_keys_teamPlaces_iff (ts : List String) (u : String) :
    u ∈ (teamPlaces ts).map (fun kv => kv.1) ↔ u ∈ ts := by
  rw [keys_teamPlaces, mem_firstOccur]
  simp

lemma getPlaces_teamPlaces (ts : List String) (u : String) :
    getPlaces (teamPlaces ts) u = placesFrom u 1 ts := by
  rw [teamPlaces, getPlaces_teamPlacesAux]
  rfl

lemma snd_of_mem_teamPlaces {ts : List String} {kv : String × List Nat}
    (hkv : kv ∈ teamPlaces ts) : kv.2 = placesFrom kv.1 1 ts := by
  have hfind := find?_eq_of_nodup_keys (teamPlaces ts) (nodup_keys_teamPlaces ts) kv hkv
  have : getPlaces (teamPlaces ts) kv.1 = kv.2 := by
    rw [getPlaces, hfind]
    rfl
  rw [← this, getPlaces_teamPlaces]

/-- The teams listed by `show_team_results` are exactly the teams of the
joined rows, in order of each team's first finisher. -/
lemma score_teams_eq (runners : List Runner) (results : List ResultRow) :
    (show_team_results runners results).map (fun e => e.team) =
      firstOccur [] ((sortedJoin runners results).map (fun r => r.team)) := by
  rw [show_team_results, List.map_map, ← keys_teamPlaces]
  rfl

lemma mem_score_teams_iff (runners : List Runner) (results : List ResultRow) (t : String) :
    t ∈ (show_team_results runners results).map (fun e => e.team) ↔
      t ∈ (joinRows runners results).map (fun r => r.team) := by
  rw [score_teams_eq, mem_firstOccur]
  constructor
  · rintro ⟨h1, _⟩
    obtain ⟨r, hr, hrt⟩ := List.mem_map.mp h1
    exact List.mem_map.mpr ⟨r, (List.mem_insertionSort elapsedLE).mp hr, hrt⟩
  · intro h1
    obtain ⟨r, hr, hrt⟩ := List.mem_map.mp h1
    exact ⟨List.mem_map.mpr ⟨r, (List.mem_insertionSort elapsedLE).mpr hr, hrt⟩,
      List.not_mem_nil t⟩

/-! ### Recording lemmas -/

/-- The race-activity flags and the start instant are untouched by recording. -/
lemma record_result_flags (s : ConsoleState) (now : Nat) (bib : String) :
    (record_result s now bib).1.race_started = s.race_started ∧
      (record_result s now bib).1.race_stopped = s.race_stopped ∧
      (record_result s now bib).1.race_start_time = s.race_start_time := by
  rw [record_result]
  split
  · exact ⟨rfl, rfl, rfl⟩
  · split <;> exact ⟨rfl, rfl, rfl⟩

/-- A valid call while the race is active appends exactly one row carrying
the next id and bumps the id counter. -/
lemma record_result_valid_step (s : ConsoleState) (now : Nat) (bib : String)
    (hstart : s.race_started = true) (hstop : s.race_stopped = false)
    (hvalid : bib = "" ∨ (parsePyInt bib).isSome = true) :
    ∃ v : Int,
      (record_result s now bib).1.results =
        s.results ++ [⟨s.nextId, v, now - s.race_start_time.getD 0,
          formatDate s.race_start_time⟩] ∧
      (record_result s now bib).1.nextId = s.nextId + 1 := by
  rw [record_result, hstart, hstop]
  simp only [Bool.not_true, Bool.false_or, if_false]
  rcases hvalid with hblank | hparse
  · rw [hblank]
    exact ⟨0, rfl, rfl⟩
  · obtain ⟨v, hv⟩ := Option.isSome_iff_exists.mp hparse
    by_cases hb : bib = ""
    · rw [hb]
      exact ⟨0, rfl, rfl⟩
    · rw [if_neg hb, hv]
      exact ⟨v, rfl, rfl⟩

/-- Invariant carried through a run of valid `record_result` calls: the store
grows by one row per call, every id stays below the counter, and ids are
strictly increasing in insertion order. -/
lemma recordAll_invariant :
    ∀ (calls : List (Nat × String)) (s : ConsoleState),
      s.race_started = true → s.race_stopped = false →
      (∀ c ∈ calls, c.2 = "" ∨ (parsePyInt c.2).isSome = true) →
      (∀ r ∈ s.results, r.id < s.nextId) →
      s.results.Pairwise (fun a b => a.id < b.id) →
      (recordAll s calls).results.length = s.results.length + calls.length ∧
        (∀ r ∈ (recordAll s calls).results, r.id < (recordAll s calls).nextId) ∧
        (recordAll s calls).results.Pairwise (fun a b => a.id < b.id) := by
  intro calls
  induction calls with
  | nil =>
      intro s _ _ _ hlt hpw
      exact ⟨rfl, hlt, hpw⟩
  | cons c cs ih =>
      intro s hstart hstop hvalid hlt hpw
      obtain ⟨v, hres, hnid⟩ :=
        record_result_valid_step s c.1 c.2 hstart hstop (hvalid c (List.mem_cons_self _ _))
      obtain ⟨hf1, hf2, _⟩ := record_result_flags s c.1 c.2
      set s' := (record_result s c.1 c.2).1 with hs'
      have hstart' : s'.race_started = true := by rw [hf1]; exact hstart
      have hstop' : s'.race_stopped = false := by rw [hf2]; exact hstop
      have hlt' : ∀ r ∈ s'.results, r.id < s'.nextId := by
        intro r hr
        rw [hres] at hr
        rw [hnid]
        rcases List.mem_append.mp hr with hr | hr
        · exact Nat.lt_succ_of_lt (hlt r hr)
        · rcases List.mem_singleton.mp hr with rfl
          exact Nat.lt_succ_self _
      have hpw' : s'.results.Pairwise (fun a b => a.id < b.id) := by
        rw [hres]
        refine List.pairwise_append.mpr ⟨hpw, List.pairwise_singleton _ _, ?_⟩
        intro a ha b hb
        rcases List.mem_singleton.mp hb with rfl
        exact hlt a ha
      have hlen' : s'.results.length = s.results.length + 1 := by
        rw [hres]; simp
      obtain ⟨h1, h2, h3⟩ := ih s' hstart' hstop'
        (fun d hd => hvalid d (List.mem_cons_of_mem _ hd)) hlt' hpw'
      refine ⟨?_, h2, h3⟩
      rw [recordAll, ← hs', h1, hlen']
      simp [Nat.add_comm, Nat.add_assoc, Nat.add_left_comm]

/-! ### Concrete fixtures -/

/-- An active race: database loaded, started at instant 10, empty store. -/
def activeS : ConsoleState :=
  { dbFilename := "data/20251012-01-race.db", race_started := true, race_stopped := false,
    race_start_time := some 10, results := [], nextId := 1 }

/-- A race that has not been started yet. -/
def notStartedS : ConsoleState :=
  { dbFilename := "data/20251012-01-race.db", race_started := false, race_stopped := false,
    race_start_time := none, results := [], nextId := 1 }

/-- A race that ran and was stopped (start instant 5 still recorded). -/
def stoppedS : ConsoleState :=
  { dbFilename := "data/20251012-01-race.db", race_started := false, race_stopped := true,
    race_start_time := some 5, results := [], nextId := 1 }

/-- The initial state before any database is created or loaded. -/
def noDbS : ConsoleState :=
  { dbFilename := "", race_started := false, race_stopped := false,
    race_start_time := none, results := [], nextId := 1 }

/-! ### Claim theorems: recorder and clock -/

/-- C1: while the race is active, `record_result` appends a bib-0 finish
event when the raw input is the blank string (blank console input reaches it
as `""` because the input loop strips it), while non-blank input that does
not parse with `int()` fails with `invalidBib` and writes nothing — blank
records, garbage does not. -/
theorem C1_blank_records_garbage_rejected (s : ConsoleState) (now : Nat) (raw : String)
    (hstart : s.race_started = true) (hstop : s.race_stopped = false) :
    (raw = "" →
      (record_result s now raw).1.results =
        s.results ++ [⟨s.nextId, 0, now - s.race_start_time.getD 0,
          formatDate s.race_start_time⟩] ∧
      (record_result s now raw).2 = .recorded 0) ∧
    (raw ≠ "" → parsePyInt raw = none →
      record_result s now raw = (s, .invalidBib)) := by
  constructor
  · intro hraw
    rw [record_result, hstart, hstop]
    simp only [Bool.not_true, Bool.false_or, if_false]
    rw [hraw]
    exact ⟨rfl, rfl⟩
  · intro hraw hparse
    rw [record_result, hstart, hstop]
    simp only [Bool.not_true, Bool.false_or, if_false]
    rw [if_neg hraw, hparse]
    rfl

/-- C1 witness: at a concrete active state, `""` appends the bib-0 event and
`"abc"` is rejected with the store untouched. -/
theorem C1_witness :
    ((record_result activeS 40 "").1.results =
      activeS.results ++ [⟨activeS.nextId, 0, 40 - activeS.race_start_time.getD 0,
        formatDate activeS.race_start_time⟩] ∧
      (record_result activeS 40 "").2 = .recorded 0) ∧
    record_result activeS 40 "abc" = (activeS, .invalidBib) :=
  ⟨(C1_blank_records_garbage_rejected activeS 40 "" rfl rfl).1 rfl,
   (C1_blank_records_garbage_rejected activeS 40 "abc" rfl rfl).2 (by decide) (by decide)⟩

/-- C2: whenever the race is not running (never started, or stopped),
`record_result` fails with `raceNotActive` and the state — in particular the
results store — is unchanged, whatever the raw input. -/
theorem C2_not_active_rejects (s : ConsoleState) (now : Nat) (raw : String)
    (h : s.race_started = false ∨ s.race_stopped = true) :
    record_result s now raw = (s, .raceNotActive) := by
  rw [record_result]
  rcases h with h | h
  · rw [h]
    rfl
  · rw [h]
    cases hb : s.race_started <;> rfl

/-- C2 witness: `record_result` with input "150" in the not-started state is
rejected with the state unchanged. -/
theorem C2_witness : record_result notStartedS 5 "150" = (notStartedS, .raceNotActive) :=
  C2_not_active_rejects notStartedS 5 "150" (Or.inl rfl)

/-- C5 counterexample: from the STOPPED state `start_race` succeeds instead
of failing with an invalid-transition error, and it overwrites the
previously recorded start instant — STOPPED is not terminal and
`race_start_time` is not set exactly once. -/
theorem C5_counterexample :
    (start_race stoppedS 200).2 = .started ∧
    (start_race stoppedS 200).1.race_started = true ∧
    stoppedS.race_start_time = some 5 ∧
    (start_race stoppedS 200).1.race_start_time = some 200 :=
  ⟨rfl, rfl, rfl, rfl⟩

/-- C5 amended: `start_race` is refused only while the race is running
(`alreadyRunning`) or when no database is loaded; from any non-running state
with a database — including STOPPED — it succeeds and sets
`race_start_time := now`, so a stop followed by a start overwrites the start
instant; `stop_race` moves a running race to STOPPED (started false,
stopped true), never back to NOT_STARTED, and keeps the start instant. -/
theorem C5_amended_transitions (s : ConsoleState) (now : Nat) :
    (s.dbFilename ≠ "" → s.race_started = true →
      start_race s now = (s, .alreadyRunning)) ∧
    (s.dbFilename ≠ "" → s.race_started = false →
      (start_race s now).2 = .started ∧
      (start_race s now).1.race_started = true ∧
      (start_race s now).1.race_stopped = false ∧
      (start_race s now).1.race_start_time = some now) ∧
    (s.race_started = true →
      (stop_race s).1.race_started = false ∧
      (stop_race s).1.race_stopped = true ∧
      (stop_race s).1.race_start_time = s.race_start_time) := by
  refine ⟨?_, ?_, ?_⟩
  · intro hdb hrun
    rw [start_race, if_neg hdb, hrun]
    rfl
  · intro hdb hrun
    rw [start_race, if_neg hdb, hrun]
    exact ⟨rfl, rfl, rfl, rfl⟩
  · intro hrun
    rw [stop_race, hrun]
    exact ⟨rfl, rfl, rfl⟩

/-- C5 witness: concrete transitions — a running race refuses `start_race`,
a stopped race restarts with a fresh start instant, and stopping a running
race lands in STOPPED. -/
theorem C5_witness :
    start_race activeS 50 = (activeS, .alreadyRunning) ∧
    (start_race stoppedS 300).2 = .started ∧
    (start_race stoppedS 300).1.race_start_time = some 300 ∧
    (stop_race activeS).1.race_stopped = true := by
  refine ⟨(C5_amended_transitions activeS 50).1 (by decide) rfl, ?_, ?_, ?_⟩
  · exact ((C5_amended_transitions stoppedS 300).2.1 (by decide) rfl).1
  · exact ((C5_amended_transitions stoppedS 300).2.1 (by decide) rfl).2.2.2
  · exact ((C5_amended_transitions activeS 50).2.2 rfl).2.1

/-- C10: with no database loaded, `start_race` fails immediately: the whole
state — clock flags and start instant included — is unchanged and no
transition to RUNNING occurs. -/
theorem C10_no_db_start_refused (s : ConsoleState) (now : Nat)
    (h : s.dbFilename = "") :
    (start_race s now).1 = s ∧ (start_race s now).2 = .noDb := by
  rw [start_race, if_pos h]
  exact ⟨rfl, rfl⟩

/-- C10 witness: starting from the fresh no-database state is a no-op. -/
theorem C10_witness : (start_race noDbS 7).1 = noDbS ∧ (start_race noDbS 7).2 = .noDb :=
  C10_no_db_start_refused noDbS 7 rfl

/-! ### Claim theorems: scoring -/

/-- A directory with a single one-runner team. -/
def rsOne : List Runner := [⟨101, "Alice", "TeamX", ""⟩]

/-- A store with a single finish for that runner. -/
def esOne : List ResultRow := [⟨1, 101, 30, "d"⟩]

/-- C3 counterexample: a team with a single ranked finisher still appears in
the team score output (with its one place as the only scorer), so teams with
fewer than 5 finishers are not excluded from the score list. -/
theorem C3_counterexample :
    show_team_results rsOne esOne = [⟨"TeamX", [1], [], 1⟩] ∧
    (sortedJoin rsOne esOne).length = 1 :=
  ⟨rfl, rfl⟩

/-- C3 amended: `show_team_results` reports every team that has at least one
ranked finisher; there is no 5-finisher qualification filter, so teams with
fewer than 5 finishers appear as well. -/
theorem C3_amended_no_qualification_filter (runners : List Runner)
    (results : List ResultRow) (t : String) :
    t ∈ (show_team_results runners results).map (fun e => e.team) ↔
      t ∈ (joinRows runners results).map (fun r => r.team) :=
  mem_score_teams_iff runners results t

/-- Directory for the ordering counterexample: Team X and Team Y. -/
def rsXY : List Runner :=
  [⟨101, "x1", "X", ""⟩, ⟨102, "x2", "X", ""⟩, ⟨103, "x3", "X", ""⟩,
   ⟨104, "x4", "X", ""⟩, ⟨105, "x5", "X", ""⟩,
   ⟨201, "y1", "Y", ""⟩, ⟨202, "y2", "Y", ""⟩, ⟨203, "y3", "Y", ""⟩,
   ⟨204, "y4", "Y", ""⟩, ⟨205, "y5", "Y", ""⟩]

/-- Finish order giving X places {1,6,7,8,9} and Y places {2,3,4,5,10}. -/
def esXY : List ResultRow :=
  [⟨1, 101, 10, "d"⟩, ⟨2, 201, 20, "d"⟩, ⟨3, 202, 30, "d"⟩, ⟨4, 203, 40, "d"⟩,
   ⟨5, 204, 50, "d"⟩, ⟨6, 102, 60, "d"⟩, ⟨7, 103, 70, "d"⟩, ⟨8, 104, 80, "d"⟩,
   ⟨9, 105, 90, "d"⟩, ⟨10, 205, 100, "d"⟩]

/-- C4 counterexample: Team X totals 31 and Team Y totals 24, yet the output
lists X first (its first finisher arrived first), so the returned sequence is
not ordered ascending by total. -/
theorem C4_counterexample :
    (show_team_results rsXY esXY).map (fun e => (e.team, e.total)) =
      [("X", 31), ("Y", 24)] ∧
    24 < 31 :=
  ⟨rfl, by decide⟩

/-- Directory for the spec scenario: Team A and Team B, five runners each. -/
def rsAB : List Runner :=
  [⟨301, "a1", "A", ""⟩, ⟨302, "a2", "A", ""⟩, ⟨303, "a3", "A", ""⟩,
   ⟨304, "a4", "A", ""⟩, ⟨305, "a5", "A", ""⟩,
   ⟨401, "b1", "B", ""⟩, ⟨402, "b2", "B", ""⟩, ⟨403, "b3", "B", ""⟩,
   ⟨404, "b4", "B", ""⟩, ⟨405, "b5", "B", ""⟩]

/-- Finish order giving A places {1,3,4,6,7} and B places {2,5,8,9,10}. -/
def esAB : List ResultRow :=
  [⟨1, 301, 10, "d"⟩, ⟨2, 401, 20, "d"⟩, ⟨3, 302, 30, "d"⟩, ⟨4, 303, 40, "d"⟩,
   ⟨5, 402, 50, "d"⟩, ⟨6, 304, 60, "d"⟩, ⟨7, 305, 70, "d"⟩, ⟨8, 403, 80, "d"⟩,
   ⟨9, 404, 90, "d"⟩, ⟨10, 405, 100, "d"⟩]

/-- C4 amended: the team entries are returned in the order of each team's
first finisher (dict insertion order), not sorted by total and with no
displacer tie-break; in the spec scenario (Team A places 1,3,4,6,7 and
Team B places 2,5,8,9,10) Team A with total 21 still precedes Team B with
total 34, because A's first finisher holds place 1. -/
theorem C4_amended_first_finisher_order (runners : List Runner) (results : List ResultRow) :
    ((show_team_results runners results).map (fun e => e.team) =
      firstOccur [] ((sortedJoin runners results).map (fun r => r.team))) ∧
    show_team_results rsAB esAB =
      [⟨"A", [1, 3, 4, 6, 7], [], 21⟩, ⟨"B", [2, 5, 8, 9, 10], [], 34⟩] :=
  ⟨score_teams_eq runners results, rfl⟩

/-- A two-finisher team, for the C6 counterexample. -/
def rsTwo : List Runner := [⟨111, "p", "T", ""⟩, ⟨112, "q", "T", ""⟩]

/-- Its two finish events. -/
def esTwo : List ResultRow := [⟨1, 111, 10, "d"⟩, ⟨2, 112, 20, "d"⟩]

/-- C6 counterexample: a team with only two finishers is reported with two
scorer places and total 3, so an output entry's scorers are not always
exactly five places and the total is not always a sum of five places. -/
theorem C6_counterexample :
    show_team_results rsTwo esTwo = [⟨"T", [1, 2], [], 3⟩] ∧
    (show_team_results rsTwo esTwo).map (fun e => e.scorers.length) = [2] :=
  ⟨rfl, rfl⟩

/-- C6 amended: for every entry of the team score output, the scorers are
the first (up to) five of the team's finisher places taken in ascending
overall place — exactly the first five when the team has at least five
finishers — the total is the sum of the scorers alone, and the displacers
are the team's 6th and 7th finisher places when present, reported separately
and never added to the total. -/
theorem C6_amended_scorers_displacers (runners : List Runner) (results : List ResultRow)
    (e : TeamScoreEntry) (he : e ∈ show_team_results runners results) :
    e.scorers =
      (placesFrom e.team 1 ((sortedJoin runners results).map (fun r => r.team))).take 5 ∧
    e.displacers =
      ((placesFrom e.team 1 ((sortedJoin runners results).map (fun r => r.team))).drop 5).take 2 ∧
    e.total = e.scorers.sum ∧
    e.scorers.Pairwise (· < ·) ∧
    e.displacers.Pairwise (· < ·) := by
  obtain ⟨kv, hkv, hkve⟩ := List.mem_map.mp he
  subst hkve
  have hsnd := snd_of_mem_teamPlaces hkv
  have hdisp : (if 5 < kv.2.length then (kv.2.drop 5).take 2 else []) =
      (kv.2.drop 5).take 2 := by
    by_cases hlen : 5 < kv.2.length
    · rw [if_pos hlen]
    · rw [if_neg hlen, List.drop_eq_nil_of_le (Nat.le_of_not_lt hlen)]
      rfl
  have hpw : kv.2.Pairwise (· < ·) := by
    rw [hsnd]
    exact placesFrom_pairwise _ 1
  refine ⟨?_, ?_, rfl, ?_, ?_⟩
  · show kv.2.take 5 = (placesFrom kv.1 1 _).take 5
    rw [hsnd]
  · show (if 5 < kv.2.length then (kv.2.drop 5).take 2 else []) =
      ((placesFrom kv.1 1 _).drop 5).take 2
    rw [hdisp, hsnd]
  · exact hpw.sublist (List.take_sublist 5 kv.2)
  · show (if 5 < kv.2.length then (kv.2.drop 5).take 2 else []).Pairwise (· < ·)
    rw [hdisp]
    exact hpw.sublist ((List.take_sublist 2 _).trans (List.drop_sublist 5 kv.2))

/-- A six-finisher team, for the C6 witness. -/
def rsSix : List Runner :=
  [⟨121, "w1", "W", ""⟩, ⟨122, "w2", "W", ""⟩, ⟨123, "w3", "W", ""⟩,
   ⟨124, "w4", "W", ""⟩, ⟨125, "w5", "W", ""⟩, ⟨126, "w6", "W", ""⟩]

/-- Its six finish events. -/
def esSix : List ResultRow :=
  [⟨1, 121, 10, "d"⟩, ⟨2, 122, 20, "d"⟩, ⟨3, 123, 30, "d"⟩,
   ⟨4, 124, 40, "d"⟩, ⟨5, 125, 50, "d"⟩, ⟨6, 126, 60, "d"⟩]

/-- C6 witness: a six-finisher team scores its first five places, total 15,
with the sixth place as the lone displacer, excluded from the total. -/
theorem C6_witness :
    (⟨"W", [1, 2, 3, 4, 5], [6], 15⟩ : TeamScoreEntry) ∈ show_team_results rsSix esSix ∧
    ([1, 2, 3, 4, 5] : List Nat) =
      (placesFrom "W" 1 ((sortedJoin rsSix esSix).map (fun r => r.team))).take 5 ∧
    ([6] : List Nat) =
      ((placesFrom "W" 1 ((sortedJoin rsSix esSix).map (fun r => r.team))).drop 5).take 2 ∧
    (15 : Nat) = ([1, 2, 3, 4, 5] : List Nat).sum := by
  have hm : (⟨"W", [1, 2, 3, 4, 5], [6], 15⟩ : TeamScoreEntry) ∈
      show_team_results rsSix esSix := by decide
  have h := C6_amended_scorers_displacers rsSix esSix _ hm
  exact ⟨hm, h.1, h.2.1, h.2.2.1⟩

/-- What the source's query `ORDER BY results.finish_time ASC` (which names
no secondary sort key) guarantees of its result set: a permutation of the
joined rows whose elapsed times are non-decreasing. SQLite documents the
relative order of rows that compare equal under the ORDER BY key as
unspecified, and the source adds no sequence-id tie-break. -/
def isOrderByElapsedResult (rows out : List JoinedRow) : Prop :=
  List.Perm rows out ∧ out.Pairwise elapsedLE

/-- Two finish events recorded at the same elapsed time — the failing input
for the claimed insertion-order tie rule. -/
def esPair : List ResultRow := [⟨1, 5, 30, "d"⟩, ⟨2, 7, 30, "d"⟩]

/-- C7: evaluated at the failing input — two events, bibs 5 then 7, both at
elapsed 30 — the code's single-key ORDER BY query admits both orders of the
tied rows: the insertion order and its reversal are each permutations of the
joined rows sorted by elapsed time, and they differ. So the code does not
guarantee the claimed insertion-order ties; the spec's stable-sort rule
would need the sequence-id tie-break the query lacks. -/
theorem C7_tie_order_not_guaranteed :
    isOrderByElapsedResult (joinRows [] esPair)
      [⟨5, "UNKNOWN", "UNKNOWN", 30⟩, ⟨7, "UNKNOWN", "UNKNOWN", 30⟩] ∧
    isOrderByElapsedResult (joinRows [] esPair)
      [⟨7, "UNKNOWN", "UNKNOWN", 30⟩, ⟨5, "UNKNOWN", "UNKNOWN", 30⟩] ∧
    ([⟨7, "UNKNOWN", "UNKNOWN", 30⟩, ⟨5, "UNKNOWN", "UNKNOWN", 30⟩] : List JoinedRow) ≠
      [⟨5, "UNKNOWN", "UNKNOWN", 30⟩, ⟨7, "UNKNOWN", "UNKNOWN", 30⟩] := by
  have hpw : ∀ a b : JoinedRow, a.elapsed = 30 → b.elapsed = 30 →
      ([a, b] : List JoinedRow).Pairwise elapsedLE := by
    intro a b ha hb
    refine List.pairwise_cons.mpr ⟨?_, List.pairwise_singleton _ _⟩
    intro c hc
    rcases List.mem_singleton.mp hc with rfl
    show a.elapsed ≤ c.elapsed
    rw [ha, hb]
  refine ⟨⟨List.Perm.refl _, hpw _ _ rfl rfl⟩,
          ⟨List.Perm.swap _ _ _, hpw _ _ rfl rfl⟩, by decide⟩

/-- C8: a finish event whose bib has no directory entry is not dropped: it
appears in the individual ranking with name and team "UNKNOWN", the report
keeps one row per event, and the team scorer groups such events under the
team "UNKNOWN". -/
theorem C8_unknown_bib_surfaces (runners : List Runner) (results : List ResultRow)
    (ev : ResultRow) (hev : ev ∈ results) (hlook : lookupRunner runners ev.bib = none) :
    (∃ r ∈ show_individual_results runners results,
      r.bib = ev.bib ∧ r.name = "UNKNOWN" ∧ r.team = "UNKNOWN") ∧
    (show_individual_results runners results).length = results.length ∧
    "UNKNOWN" ∈ (show_team_results runners results).map (fun e => e.team) := by
  have hjoin : joinRow runners ev = ⟨ev.bib, "UNKNOWN", "UNKNOWN", ev.finish_time⟩ := by
    rw [joinRow, hlook]
  have hmem : (⟨ev.bib, "UNKNOWN", "UNKNOWN", ev.finish_time⟩ : JoinedRow) ∈
      sortedJoin runners results := by
    rw [sortedJoin]
    exact (List.mem_insertionSort elapsedLE).mpr (List.mem_map.mpr ⟨ev, hev, hjoin⟩)
  refine ⟨?_, ?_, ?_⟩
  · obtain ⟨r, hr, h1, h2, h3⟩ := rankRows_mem _ 1 _ hmem
    exact ⟨r, hr, h1, h2, h3⟩
  · rw [show_individual_results, rankRows_length, sortedJoin,
      List.length_insertionSort, joinRows, List.length_map]
  · exact (mem_score_teams_iff runners results "UNKNOWN").mpr
      (List.mem_map.mpr ⟨joinRow runners ev, List.mem_map.mpr ⟨ev, hev, rfl⟩, by rw [hjoin]⟩)

/-- A one-entry directory, for the C8 witness. -/
def rsKnown : List Runner := [⟨101, "Ann", "T1", ""⟩]

/-- A store holding one unknown-bib event (999) and one known event (101). -/
def esMixed : List ResultRow := [⟨1, 999, 50, "d"⟩, ⟨2, 101, 60, "d"⟩]

/-- C8 witness: the bib-999 event, absent from the directory, surfaces as
UNKNOWN/UNKNOWN in the ranking, no row is dropped, and team "UNKNOWN"
appears in the team report. -/
theorem C8_witness :
    (∃ r ∈ show_individual_results rsKnown esMixed,
      r.bib = 999 ∧ r.name = "UNKNOWN" ∧ r.team = "UNKNOWN") ∧
    (show_individual_results rsKnown esMixed).length = 2 ∧
    "UNKNOWN" ∈ (show_team_results rsKnown esMixed).map (fun e => e.team) := by
  have h := C8_unknown_bib_surfaces rsKnown esMixed ⟨1, 999, 50, "d"⟩ (by decide) (by decide)
  exact ⟨h.1, h.2.1, h.2.2⟩

/-- C9: from an active state with an empty store, a run of `record_result`
calls whose inputs are each blank or parse as integers adds exactly one
event per call — the final store length equals the number of calls — and the
assigned ids are strictly increasing in call order. -/
theorem C9_one_event_per_call (s : ConsoleState) (calls : List (Nat × String))
    (hstart : s.race_started = true) (hstop : s.race_stopped = false)
    (hempty : s.results = [])
    (hvalid : ∀ c ∈ calls, c.2 = "" ∨ (parsePyInt c.2).isSome = true) :
    (recordAll s calls).results.length = calls.length ∧
    (recordAll s calls).results.Pairwise (fun a b => a.id < b.id) := by
  have h := recordAll_invariant calls s hstart hstop hvalid
    (by rw [hempty]; intro r hr; cases hr)
    (by rw [hempty]; exact List.Pairwise.nil)
  refine ⟨?_, h.2.2⟩
  rw [h.1, hempty]
  simp

/-- C9 witness: three valid calls (numeric, blank, numeric) leave exactly
three events with strictly increasing ids. -/
theorem C9_witness :
    (recordAll activeS [(20, "150"), (25, ""), (30, "7")]).results.length = 3 ∧
    (recordAll activeS [(20, "150"), (25, ""), (30, "7")]).results.Pairwise
      (fun a b => a.id < b.id) :=
  C9_one_event_per_call activeS [(20, "150"), (25, ""), (30, "7")] rfl rfl rfl (by decide)

end RaceTiming
